import Mathlib

/-!
Verification of the deej_esp32 desktop client core against its design
specification.

The Go sources are shallowly embedded below.  JSON / `interface{}` values
that flow through viper and `encoding/json` are modelled by the inductive
`JValue`; Go maps `map[string]interface{}` become association lists
(first match wins, keys are unique in practice).  Machine floats
(`float32` / `float64`) are modelled by `ℚ`: the claims under scrutiny are
about the exact arithmetic the code performs (clamping, division by 100,
inversion), not about rounding.  Machine integers are modelled by `Int` /
`Nat`; none of the verified paths can overflow 64 bits on the inputs the
claims quantify over.
-/

namespace Deej

/-- A JSON-ish dynamic value, the image of Go `interface{}` after
`json.Unmarshal` into `map[string]interface{}` (numbers always arrive as
`float64`, here `ℚ`). -/
inductive JValue where
  | num  (v : ℚ)
  | str  (s : String)
  | bool (b : Bool)
  | null
  | arr  (xs : List JValue)
  | obj  (fields : List (String × JValue))
deriving Repr

/-- Go `map[string]interface{}`, as an association list. -/
abbrev JObj := List (String × JValue)

/-- Map lookup (`raw[k]` together with the `ok` flag collapsed into
`Option`). -/
def jLookup (m : JObj) (k : String) : Option JValue :=
  match m with
  | [] => none
  | (k', v) :: rest => if k' = k then some v else jLookup rest k

/-- Go `raw[k].(string)` with the error ignored: a missing key or a
non-string value yields the zero value `""`. -/
def asGoString (m : JObj) (k : String) : String :=
  match jLookup m k with
  | some (.str s) => s
  | _ => ""

/-- Go `v, ok := raw[k].(float64)`. -/
def asGoNum (m : JObj) (k : String) : Option ℚ :=
  match jLookup m k with
  | some (.num v) => some v
  | _ => none

/-- Go `v, ok := raw[k].(bool)`. -/
def asGoBool (m : JObj) (k : String) : Option Bool :=
  match jLookup m k with
  | some (.bool b) => some b
  | _ => none

/-- Go `v, ok := raw[k].(string)` keeping the `ok` flag. -/
def asGoStr (m : JObj) (k : String) : Option String :=
  match jLookup m k with
  | some (.str s) => s
  | _ => none

/-- Drops `pat` from the front of `l`; `none` when `pat` does not lead
`l`.  Used to embed the anchored regexes of `deej.go`. -/
def dropPre : List Char → List Char → Option (List Char)
  | [], rest => some rest
  | _ :: _, [] => none
  | a :: as, b :: bs => if a = b then dropPre as bs else none

/-- The numeric value of a nonempty all-digit character list (`\d+` plus
`strconv.Atoi`, overflow ignored). -/
def digitsToNat : List Char → Option ℕ
  | l =>
    if l ≠ [] ∧ l.all Char.isDigit then
      some (l.foldl (fun a c => a * 10 + (c.toNat - 48)) 0)
    else
      none

/-- `potPattern = regexp.MustCompile(` ^sensor-pot(\d+)$ `)` applied to
`id`, returning the captured index. -/
def matchPot (s : String) : Option ℕ :=
  match dropPre "sensor-pot".toList s.toList with
  | some rest => digitsToNat rest
  | none => none

/-- `swPattern = regexp.MustCompile(` ^binary_sensor-sw(\d+)$ `)` applied
to `id`, returning the captured index. -/
def matchSw (s : String) : Option ℕ :=
  match dropPre "binary_sensor-sw".toList s.toList with
  | some rest => digitsToNat rest
  | none => none

/-- The clamp in `Deej.handleStateEvent`:
`if n < 0 { n = 0 } else if n > 1 { n = 1 }`. -/
def clamp01 (q : ℚ) : ℚ :=
  if q < 0 then 0 else if q > 1 then 1 else q

/-- Go `strings.ToUpper` (the decoder only compares against the ASCII
literal `"ON"`, where Go and Lean agree). -/
def goToUpper (s : String) : String :=
  ⟨s.toList.map Char.toUpper⟩

/-- `SliderMoveEvent` from the sources. -/
structure SliderMoveEvent where
  sliderID : ℕ
  percentValue : ℚ
deriving Repr, DecidableEq

/-- `SwitchEvent` from the sources.  `prevState` and `hasPrev` mirror the
`PrevState` / `HasPrev` fields; every construction site in the sources
leaves them at their zero values (`false`). -/
structure SwitchEvent where
  switchID : ℕ
  state : Bool
  prevState : Bool
  hasPrev : Bool
deriving Repr, DecidableEq

/-- The two event kinds a state payload can decode to. -/
inductive Event where
  | sliderMove (e : SliderMoveEvent)
  | switchChange (e : SwitchEvent)
deriving Repr, DecidableEq

/-- `Deej.handleStateEvent` (deej.go): decodes one state payload into at
most one event.  The surrounding fan-out to subscriber channels forwards
the single decoded event unchanged, so `Option Event` captures the
"zero or one event" contract.  `invertSliders` is
`d.config.InvertSliders`. -/
def handleStateEvent (invertSliders : Bool) (raw : JObj) : Option Event :=
  let id := asGoString raw "id"
  if id = "" then none
  else
    match matchPot id with
    | some idx =>
      match asGoNum raw "value" with
      | some val =>
        let n := clamp01 (val / 100)
        let n' := if invertSliders then 1 - n else n
        some (.sliderMove ⟨idx, n'⟩)
      | none => none
    | none =>
      match matchSw id with
      | some idx =>
        match asGoBool raw "value" with
        | some b => some (.switchChange ⟨idx, b, false, false⟩)
        | none =>
          match asGoStr raw "state" with
          | some sStr => some (.switchChange ⟨idx, goToUpper sStr = "ON", false, false⟩)
          | none => none
      | none => none

/-! ## Sessions (`session.go`: `baseSession`) -/

/-- The observable state of one `Session` object.  `key` and
`processPath` are immutable after construction; `muted` tracks the
platform mute flag (`SetMute` modelled as succeeding — a platform failure
only changes logging and the refresh policy flag); `switchMuteCount` is
the `baseSession.switchMuteCount` field. -/
structure SessionState where
  key : String
  processPath : String
  muted : Bool
  switchMuteCount : Int
deriving Repr, DecidableEq

/-- `baseSession.GetSwitchMuteCount`. -/
def getSwitchMuteCount (s : SessionState) : Int := s.switchMuteCount

/-- `baseSession.SetSwitchMuteCount`: negative inputs are stored as 0. -/
def setSwitchMuteCount (s : SessionState) (count : Int) : SessionState :=
  { s with switchMuteCount := if count < 0 then 0 else count }

/-- `baseSession.AdjustSwitchMuteCount`: add the delta, floor at 0,
return the new value. -/
def adjustSwitchMuteCount (s : SessionState) (delta : Int) : SessionState × Int :=
  let c := s.switchMuteCount + delta
  let c' := if c < 0 then 0 else c
  ({ s with switchMuteCount := c' }, c')

/-- One mutation of the switch-mute counter. -/
inductive MuteCountOp where
  | set (count : Int)
  | adjust (delta : Int)
deriving Repr, DecidableEq

/-- Apply one counter mutation. -/
def runMuteCountOp (s : SessionState) : MuteCountOp → SessionState
  | .set c => setSwitchMuteCount s c
  | .adjust d => (adjustSwitchMuteCount s d).1

/-- Apply a sequence of counter mutations. -/
def runMuteCountOps (s : SessionState) (ops : List MuteCountOp) : SessionState :=
  ops.foldl runMuteCountOp s

/-! ## Configuration and environment -/

/-- Integer-keyed mapping lookup (`sliderMap.get` / `switchMap.get`). -/
def mappingGet : List (ℕ × List String) → ℕ → Option (List String)
  | [], _ => none
  | (k', v) :: rest, k => if k' = k then some v else mappingGet rest k

/-- The configuration fields the session map reads
(`CanonicalConfig`). -/
structure Config where
  sliderMapping : List (ℕ × List String)
  switchesMapping : List (ℕ × List String)
  invertSliders : Bool
  invertSwitches : Bool

/-- Platform / process inputs of the session map.  `normalizePath`
abstracts `util.NormalizePath` (it calls `filepath.Abs`, which depends on
the working directory); `currentWindowNames` abstracts
`util.GetCurrentWindowProcessNames`; `getSwitchState` abstracts
`Deej.GetSwitchState`, whose definition is not among the sources (only
its callers are) and which is therefore left uninterpreted;
`getAllSessions` abstracts `SessionFinder.GetAllSessions` (`none` = the
platform backend errored). -/
structure Env where
  isWindows : Bool
  normalizePath : String → Option String
  currentWindowNames : Option (List String)
  getSwitchState : ℕ → Option Bool
  getAllSessions : Option (List SessionState)

/-! ## Path and target helpers (`util`, `session_map.go`) -/

/-- `filepath.Separator`. -/
def goSeparator (env : Env) : Char := if env.isWindows then '\\' else '/'

/-- Go `strings.ToLower` on the ASCII targets the mapping uses. -/
def goToLower (s : String) : String := ⟨s.toList.map Char.toLower⟩

/-- `strings.HasPrefix` as a character-list check. -/
def listHasPre (pat l : List Char) : Bool := (dropPre pat l).isSome

/-- A path separator character (`[/\\]` in the util regexes). -/
def isSepChar (c : Char) : Bool := c = '/' || c = '\\'

/-- `windowsDrivePathRegex`: matches a leading drive letter, colon and
separator (`^[A-Za-z]:[/\\]`). -/
def isWinDrive : List Char → Bool
  | c :: ':' :: sep :: _ => c.isAlpha && isSepChar sep
  | _ => false

/-- Scanner for the tail of `uncPathRegex`: at least one non-separator
followed by a separator. -/
def uncBody : List Char → Bool
  | [] => false
  | c :: rest => if isSepChar c then false else uncTail rest
where
  uncTail : List Char → Bool
    | [] => false
    | c :: rest => if isSepChar c then true else uncTail rest

/-- `uncPathRegex`: `^[/\\]{2}[^/\\]+[/\\]`. -/
def isUNC : List Char → Bool
  | a :: b :: rest => isSepChar a && isSepChar b && uncBody rest
  | _ => false

/-- `util.IsPath`: does a target string look like a file path. -/
def isPath (env : Env) (s : String) : Bool :=
  let l := s.toList
  if isWinDrive l then true
  else if isUNC l then true
  else if listHasPre ['/'] l then true
  else if l.contains (goSeparator env) then true
  else if env.isWindows && l.contains '\\' then true
  else false

/-- `util.PathMatches`: normalize both paths, append a trailing
separator to the target if absent, and test the target as a prefix of
the process path. -/
def pathMatches (env : Env) (processPath targetPath : String) : Bool :=
  if processPath = "" || targetPath = "" then false
  else
    match env.normalizePath processPath with
    | none => false
    | some np =>
      match env.normalizePath targetPath with
      | none => false
      | some nt =>
        let sep := goSeparator env
        let ntl := if nt.toList.getLast? = some sep then nt.toList else nt.toList ++ [sep]
        listHasPre ntl np.toList

/-- `strings.HasPrefix(target, specialTargetTransformPrefix)` with the
prefix constant `"deej."`. -/
def hasDeejPre (s : String) : Bool := listHasPre "deej.".toList s.toList

/-- `strings.TrimPrefix(target, "deej.")`. -/
def trimDeejPre (s : String) : String :=
  match dropPre "deej.".toList s.toList with
  | some rest => ⟨rest⟩
  | none => s

/-- `funk.UniqString`: dedup keeping first occurrences. -/
def uniqFirst (l : List String) : List String :=
  l.foldl (fun acc s => if acc.contains s then acc else acc ++ [s]) []

/-- `sessionMap.applyTargetTransform`.  `unmappedKeys` is the key list of
`m.unmappedSessions`. -/
def applyTargetTransform (env : Env) (unmappedKeys : List String) (name : String) : List String :=
  if name = "current" then
    match env.currentWindowNames with
    | none => []
    | some names => uniqFirst (names.map goToLower)
  else if name = "unmapped" then unmappedKeys
  else []

/-- `sessionMap.resolveTarget`: lowercase, then apply a special transform
when the `deej.` prefix is present. -/
def resolveTarget (env : Env) (unmappedKeys : List String) (target : String) : List String :=
  let t := goToLower target
  if hasDeejPre t then applyTargetTransform env unmappedKeys (trimDeejPre t)
  else [t]

/-! ## The session map (`session_map.go`) -/

/-- Session objects are identified by their index in the allocation
store (Go pointer identity). -/
abbrev SessionId := ℕ

/-- `sessionMap` state: `store` holds every `Session` object ever
allocated (mirroring the heap), `buckets` is the keyed map `m.m`,
`lastSessionRefresh` is in nanoseconds, `unmappedSessions` mirrors
`m.unmappedSessions`. -/
structure MapState where
  store : List SessionState
  buckets : List (String × List SessionId)
  lastSessionRefresh : ℕ
  unmappedSessions : List SessionId
deriving Repr, DecidableEq

/-- Dereference a session object. -/
def storeGet (st : MapState) (sid : SessionId) : SessionState :=
  st.store.getD sid ⟨"", "", false, 0⟩

/-- Mutate a session object in place. -/
def storeSet (st : MapState) (sid : SessionId) (s : SessionState) : MapState :=
  { st with store := st.store.set sid s }

/-- `sessionMap.get`. -/
def bucketGet : List (String × List SessionId) → String → Option (List SessionId)
  | [], _ => none
  | (k', v) :: rest, k => if k' = k then some v else bucketGet rest k

/-- `sessionMap.add`: append to an existing bucket or create one. -/
def bucketAdd : List (String × List SessionId) → String → SessionId → List (String × List SessionId)
  | [], k, sid => [(k, [sid])]
  | (k', v) :: rest, k, sid =>
    if k' = k then (k', v ++ [sid]) :: rest else (k', v) :: bucketAdd rest k sid

/-- The sessions currently in the map, in bucket order (`m.m` iteration;
Go map order is unspecified, this fixes one admissible order). -/
def allSessionIds (buckets : List (String × List SessionId)) : List SessionId :=
  (buckets.map Prod.snd).flatten

/-- Key list of the currently unmapped sessions. -/
def unmappedKeysOf (st : MapState) : List String :=
  st.unmappedSessions.map (fun sid => (storeGet st sid).key)

/-- Observable side effects of a refresh: releasing an old session
object, adding a new one to the map. -/
inductive Act where
  | release (sid : SessionId)
  | add (sid : SessionId)
deriving Repr, DecidableEq

/-- Is this action a `Release` call. -/
def actIsRelease : Act → Bool
  | .release _ => true
  | .add _ => false

/-- The session objects released by a trace, in order. -/
def actReleases (tr : List Act) : List SessionId :=
  tr.filterMap (fun a =>
    match a with
    | .release sid => some sid
    | .add _ => none)

/-- `masterSessionName`. -/
def masterSessionName : String := "master"

/-- `systemSessionName`. -/
def systemSessionName : String := "system"

/-- `inputSessionName`. -/
def inputSessionName : String := "mic"

/-- Scanner for `deviceSessionKeyPattern`: finds `" ("` followed by at
least one more character, with at least one character already consumed
by the caller. -/
def hasSpaceParen : List Char → Bool
  | ' ' :: '(' :: _ :: _ => true
  | _ :: rest => hasSpaceParen rest
  | [] => false

/-- `deviceSessionKeyPattern = regexp.MustCompile(` ^.+ \(.+\)$ `)`:
a friendly device name such as `Headphones (Realtek Audio)`. -/
def deviceKeyMatch (s : String) : Bool :=
  match s.toList.getLast? with
  | some ')' =>
    match s.toList.dropLast with
    | [] => false
    | _ :: rest => hasSpaceParen rest
  | _ => false

/-- `sessionMap.sessionMapped`: special and device sessions always count
as mapped; otherwise some non-special slider-mapping target must match
by path or by key. -/
def sessionMapped (cfg : Config) (env : Env) (s : SessionState) : Bool :=
  if s.key = masterSessionName || s.key = systemSessionName || s.key = inputSessionName then true
  else if deviceKeyMatch s.key then true
  else
    cfg.sliderMapping.any (fun p =>
      p.2.any (fun target =>
        if hasDeejPre target then false
        else
          let rt := goToLower target
          if isPath env rt then pathMatches env s.processPath rt
          else rt = s.key))

/-- `sessionMap.calculateSwitchMuteCount`: one increment per active
switch mapping whose targets match the session. -/
def calculateSwitchMuteCount (cfg : Config) (env : Env) (st : MapState) (s : SessionState) : Int :=
  cfg.switchesMapping.foldl (fun count p =>
    match env.getSwitchState p.1 with
    | none => count
    | some state0 =>
      let state := if cfg.invertSwitches then !state0 else state0
      if !state then count
      else if p.2.any (fun target =>
          (resolveTarget env (unmappedKeysOf st) target).any (fun rt =>
            if isPath env rt then pathMatches env s.processPath rt
            else rt = s.key)) then count + 1
      else count) 0

/-- `sessionMap.applySwitchMuteState`: recompute the counter for a fresh
session and mute it if positive. -/
def applySwitchMuteState (cfg : Config) (env : Env) (st : MapState) (s : SessionState) : SessionState :=
  let count := calculateSwitchMuteCount cfg env st s
  let s' := setSwitchMuteCount s count
  if count > 0 && !s'.muted then { s' with muted := true } else s'

/-- `sessionMap.clear`: release every session in the map and empty it.
The release trace lists the previous snapshot in bucket order. -/
def clearMap (st : MapState) : MapState × List Act :=
  ({ st with buckets := [] }, (allSessionIds st.buckets).map Act.release)

/-- `minTimeBetweenSessionRefreshes = time.Second * 5`, in
nanoseconds. -/
def minTimeBetweenSessionRefreshes : ℕ := 5 * 1000000000

/-- `maxTimeBetweenSessionRefreshes = time.Second * 45`, in
nanoseconds. -/
def maxTimeBetweenSessionRefreshes : ℕ := 45 * 1000000000

/-- The body of the session loop in `getAndAddSessions`: allocate the
fresh session object, `m.add` it, `m.applySwitchMuteState` it, and
track it as unmapped when appropriate. -/
def addSessionStep (cfg : Config) (env : Env) (acc : MapState × List Act) (s : SessionState) :
    MapState × List Act :=
  let st1 := acc.1
  let sid := st1.store.length
  let st2 := { st1 with store := st1.store ++ [s], buckets := bucketAdd st1.buckets s.key sid }
  let st3 := storeSet st2 sid (applySwitchMuteState cfg env st2 (storeGet st2 sid))
  let st4 :=
    if sessionMapped cfg env (storeGet st3 sid) then st3
    else { st3 with unmappedSessions := st3.unmappedSessions ++ [sid] }
  (st4, acc.2 ++ [Act.add sid])

/-- `sessionMap.getAndAddSessions`: stamp the refresh time, reset the
unmapped list, then (on backend success) allocate, index, mute-adjust
and classify every discovered session. -/
def getAndAddSessions (cfg : Config) (env : Env) (now : ℕ) (st : MapState) : MapState × List Act :=
  let st0 := { st with lastSessionRefresh := now, unmappedSessions := [] }
  match env.getAllSessions with
  | none => (st0, [])
  | some sessions => sessions.foldl (addSessionStep cfg env) (st0, [])

/-- `sessionMap.refreshSessions`: unless forced, return when less than
the soft minimum has elapsed; otherwise clear-and-release, then
re-acquire. -/
def refreshSessions (cfg : Config) (env : Env) (now : ℕ) (force : Bool) (st : MapState) :
    MapState × List Act :=
  if !force && now < st.lastSessionRefresh + minTimeBetweenSessionRefreshes then (st, [])
  else
    let cleared := clearMap st
    let rebuilt := getAndAddSessions cfg env now cleared.1
    (rebuilt.1, cleared.2 ++ rebuilt.2)

/-- `sessionMap.applySwitchStateToSession`: per-event counter adjustment
and mute transition for one session.  The returned flag is the
`actionFailed` result (always `false` here because `SetMute` is modelled
as succeeding). -/
def applySwitchStateToSession (s : SessionState) (state prevState hasPrev : Bool) :
    SessionState × Bool :=
  if hasPrev && state == prevState then (s, false)
  else
    let delta : Int :=
      if hasPrev then (if state then 1 else -1)
      else if state then 1 else 0
    let s1 := if delta ≠ 0 then (adjustSwitchMuteCount s delta).1 else s
    if getSwitchMuteCount s1 > 0 then
      if !s1.muted then ({ s1 with muted := true }, false) else (s1, false)
    else
      if s1.muted && (!hasPrev || !state) then ({ s1 with muted := false }, false)
      else (s1, false)

/-- `applyToSession` inside `handleSwitchEvent`: coalesce so each
session object is adjusted at most once per event. -/
def applyToSession (state prevState hasPrev : Bool)
    (acc : MapState × List SessionId × Bool) (sid : SessionId) :
    MapState × List SessionId × Bool :=
  let (st, applied, failed) := acc
  if applied.contains sid then (st, applied, failed)
  else
    let r := applySwitchStateToSession (storeGet st sid) state prevState hasPrev
    (storeSet st sid r.1, applied ++ [sid], r.2 || failed)

/-- `sessionMap.handleSwitchEvent`: optional staleness refresh, target
resolution, per-session application, and the trailing no-target /
failure refresh policy. -/
def handleSwitchEvent (cfg : Config) (env : Env) (now : ℕ) (st : MapState) (ev : SwitchEvent) :
    MapState × List Act :=
  let pre :=
    if st.lastSessionRefresh + maxTimeBetweenSessionRefreshes < now then
      refreshSessions cfg env now true st
    else (st, [])
  let st := pre.1
  let tr0 := pre.2
  match mappingGet cfg.switchesMapping ev.switchID with
  | none => (st, tr0)
  | some targets =>
    let state := if cfg.invertSwitches then !ev.state else ev.state
    let prevState := if cfg.invertSwitches then !ev.prevState else ev.prevState
    let res := targets.foldl (fun acc target =>
      (resolveTarget env (unmappedKeysOf acc.1) target).foldl (fun acc rt =>
        let (st1, applied1, found1, failed1) := acc
        if isPath env rt then
          (allSessionIds st1.buckets).foldl (fun acc2 sid =>
            let (st2, applied2, found2, failed2) := acc2
            if pathMatches env (storeGet st2 sid).processPath rt then
              let r := applyToSession state prevState ev.hasPrev (st2, applied2, failed2) sid
              (r.1, r.2.1, true, r.2.2)
            else (st2, applied2, found2, failed2)) (st1, applied1, found1, failed1)
        else
          match bucketGet st1.buckets rt with
          | none => (st1, applied1, found1, failed1)
          | some sids =>
            let r := sids.foldl (applyToSession state prevState ev.hasPrev) (st1, applied1, failed1)
            (r.1, r.2.1, true, r.2.2)) acc)
      ((st, [], false, false) : MapState × List SessionId × Bool × Bool)
    let stF := res.1
    let targetFound := res.2.2.1
    let actionFailed := res.2.2.2
    if !targetFound then
      let r := refreshSessions cfg env now false stF
      (r.1, tr0 ++ r.2)
    else if actionFailed then
      let r := refreshSessions cfg env now true stF
      (r.1, tr0 ++ r.2)
    else (stF, tr0)

/-! ## Transport selection (`Deej.startIOTrace`, deej.go) -/

/-- The two I/O implementations. -/
inductive IOKind where
  | serial
  | sse
deriving Repr, DecidableEq

/-- Classification of a `serial.Start()` error: `busy` is
`os.ErrPermission` (port occupied), `missing` is `os.ErrNotExist`
(no such port), `other` is any other error. -/
inductive SerialErr where
  | busy
  | missing
  | other
deriving Repr, DecidableEq

/-- The user notifications `startIOTrace` can produce (`d.notifier.Notify`
call sites, identified by message). -/
inductive Notification where
  | noInterfaceConfigured
  | serialBusy
  | serialWrongPort
  | serialWrongPortTryingSSE
  | sseUnreachable
deriving Repr, DecidableEq

/-- Observable actions of `startIOTrace`, in program order. -/
inductive StartAct where
  | setActive (k : IOKind)
  | startSerial
  | startSSE
  | notify (n : Notification)
  | signalStop
deriving Repr, DecidableEq

/-- Inputs of `startIOTrace`: the connection configuration and the outcomes
of the two `Start()` calls.  `serialStart = none` means success;
`sseStart = true` means `sse.Start()` returned an error. -/
structure StartEnv where
  serialPort : String
  serialBaudRate : Int
  sseURL : String
  serialStart : Option SerialErr
  sseStart : Bool
deriving Repr, DecidableEq

/-- `serialConfigured` in `startIOTrace`. -/
def serialConfigured (e : StartEnv) : Bool :=
  decide (e.serialPort ≠ "") && decide (e.serialBaudRate ≠ 0)

/-- `sseConfigured` in `startIOTrace`. -/
def sseConfigured (e : StartEnv) : Bool := decide (e.sseURL ≠ "")

/-- `Deej.startIOTrace` as the trace of its observable actions.  The first
component of `serialPhase` is the trace of the serial attempt, the
second is whether the function returned inside it. -/
def startIOTrace (e : StartEnv) : List StartAct :=
  if !serialConfigured e && !sseConfigured e then
    [.notify .noInterfaceConfigured, .signalStop]
  else
    let serialPhase : List StartAct × Bool :=
      if serialConfigured e then
        match e.serialStart with
        | none => ([.setActive .serial, .startSerial], true)
        | some .busy => ([.setActive .serial, .startSerial, .notify .serialBusy, .signalStop], true)
        | some .missing =>
          if !sseConfigured e then
            ([.setActive .serial, .startSerial, .notify .serialWrongPort, .signalStop], true)
          else
            ([.setActive .serial, .startSerial, .notify .serialWrongPortTryingSSE], false)
        | some .other => ([.setActive .serial, .startSerial], false)
      else ([], false)
    if serialPhase.2 then serialPhase.1
    else if !sseConfigured e then serialPhase.1 ++ [.signalStop]
    else
      serialPhase.1 ++ [.setActive .sse, .startSSE] ++
        (if e.sseStart then [.notify .sseUnreachable, .signalStop] else [])

/-! ## Button action parsing (`button_map.go`: `parseActionConfig`) -/

/-- `WaitWnd`. -/
structure WaitWnd where
  timeout : Int
  focused : Bool
  title : String
deriving Repr, DecidableEq

/-- `ActionStep`. -/
structure ActionStep where
  type : String
  app : String
  args : List String
  wait : Bool
  waitTimeout : Int
  waitWnd : Option WaitWnd
  ms : Int
  keys : String
  text : String
  charDelay : Int
deriving Repr, DecidableEq

/-- The zero value `ActionStep{}`. -/
def emptyStep : ActionStep := ⟨"", "", [], false, 0, none, 0, "", "", 0⟩

/-- `ButtonActionConfig`. -/
structure ButtonActionConfig where
  exclusive : Bool
  steps : List ActionStep
deriving Repr, DecidableEq

/-- Go `int(float64)`: truncation toward zero. -/
def goTruncQ (q : ℚ) : Int := if q < 0 then q.ceil else q.floor

/-- Parsing of the `execute` step fields. -/
def parseExecuteFields (stepMap : JObj) (step : ActionStep) : ActionStep :=
  let step :=
    match jLookup stepMap "app" with
    | some (.str a) => { step with app := a }
    | _ => step
  let step :=
    match jLookup stepMap "args" with
    | some (.arr xs) =>
      { step with args := xs.foldl (fun acc a =>
          match a with
          | .str s => acc ++ [s]
          | _ => acc) [] }
    | _ => step
  let step :=
    match jLookup stepMap "wait" with
    | some (.bool b) => { step with wait := b }
    | _ => step
  let step :=
    match jLookup stepMap "wait_timeout" with
    | some (.num q) => { step with waitTimeout := goTruncQ q }
    | _ => step
  match jLookup stepMap "wait_wnd" with
  | some (.obj wndMap) =>
    let t : Int :=
      match jLookup wndMap "timeout" with
      | some (.num q) => goTruncQ q
      | _ => 0
    let f : Bool :=
      match jLookup wndMap "focused" with
      | some (.bool b) => b
      | _ => false
    let ttl : String :=
      match jLookup wndMap "title" with
      | some (.str s) => s
      | _ => ""
    if t > 0 then { step with waitWnd := some ⟨t, f, ttl⟩ } else step
  | _ => step

/-- One iteration of the steps loop in `parseActionConfig`.  On the
JSON value domain the reflection fallbacks for exotic viper types are
unreachable; a non-object step or a step without a string `type` is
skipped (`continue`). -/
def parseStepFold (acc : List ActionStep) (stepInterface : JValue) : List ActionStep :=
  match stepInterface with
  | .obj stepMap =>
    match jLookup stepMap "type" with
    | some (.str stepType) =>
      let step := { emptyStep with type := stepType }
      let step :=
        if stepType = "execute" then parseExecuteFields stepMap step
        else if stepType = "delay" then
          match jLookup stepMap "ms" with
          | some (.num q) => { step with ms := goTruncQ q }
          | _ => step
        else if stepType = "keystroke" then
          match jLookup stepMap "keys" with
          | some (.str k) => { step with keys := k }
          | _ => step
        else if stepType = "typing" then
          let step :=
            match jLookup stepMap "text" with
            | some (.str t) => { step with text := t }
            | _ => step
          match jLookup stepMap "char_delay" with
          | some (.num q) => { step with charDelay := goTruncQ q }
          | _ => step
        else step
      acc ++ [step]
    | _ => acc
  | _ => acc

/-- `parseActionConfig`: exclusivity defaults to `true` unless an
explicit boolean overrides it; the steps list is parsed when `steps` is
a slice and is empty otherwise. -/
def parseActionConfig (actionMap : JObj) : ButtonActionConfig :=
  let exclusive :=
    match jLookup actionMap "exclusive" with
    | some (.bool b) => b
    | _ => true
  match jLookup actionMap "steps" with
  | some (.arr stepsSlice) => ⟨exclusive, stepsSlice.foldl parseStepFold []⟩
  | _ => ⟨exclusive, []⟩

/-! ## Slider override loading (`config.go`: `populateFromVipers`) -/

/-- The value of a `slider_override` entry as viper hands it over
(`interface{}` from YAML). -/
inductive GoVal where
  | int (n : Int)
  | float (q : ℚ)
  | str (s : String)
  | nil
  | other
deriving Repr, DecidableEq

/-- `strconv.Atoi`: optional sign, at least one digit (overflow
ignored). -/
def goAtoi (s : String) : Option Int :=
  match s.toList with
  | '+' :: rest => (digitsToNat rest).map Int.ofNat
  | '-' :: rest => (digitsToNat rest).map (fun n => -(Int.ofNat n))
  | l => (digitsToNat l).map Int.ofNat

/-- Go map assignment `m[k] = v` on an association list. -/
def mapInsert : List (Int × Int) → Int → Int → List (Int × Int)
  | [], k, v => [(k, v)]
  | (k', v') :: rest, k, v =>
    if k' = k then (k, v) :: rest else (k', v') :: mapInsert rest k v

/-- The range validation in `populateFromVipers`: out-of-range values
are clamped (0 below, 100 above), in-range values pass through. -/
def clampOverridePct (p : Int) : Int :=
  if p < 0 || p > 100 then
    let p1 := if p < 0 then 0 else p
    if p1 > 100 then 100 else p1
  else p

/-- One iteration of the `slider_override` loop: skip bad indices, skip
`nil` and empty-string values, convert and clamp the rest. -/
def sliderOverrideStep (acc : List (Int × Int)) (entry : String × GoVal) : List (Int × Int) :=
  match goAtoi entry.1 with
  | none => acc
  | some sliderIdx =>
    match entry.2 with
    | .nil => acc
    | .int n => mapInsert acc sliderIdx (clampOverridePct n)
    | .float q => mapInsert acc sliderIdx (clampOverridePct (goTruncQ q))
    | .str s =>
      if s = "" then acc
      else
        match goAtoi s with
        | none => acc
        | some parsed => mapInsert acc sliderIdx (clampOverridePct parsed)
    | .other => acc

/-- The `slider_override` loading loop over the configured entries. -/
def populateSliderOverride (entries : List (String × GoVal)) : List (Int × Int) :=
  entries.foldl sliderOverrideStep []

/-! ## Concrete data for the switch-mute scenario (Scenario B) -/

/-- Scenario-B configuration:
`switch_mapping = { 0: [discord], 1: [discord] }`, no inversion. -/
def scenBCfg : Config := ⟨[], [(0, ["discord"]), (1, ["discord"])], false, false⟩

/-- Scenario-B environment: no platform facilities are consulted on this
event path. -/
def scenBEnv : Env := ⟨false, fun _ => none, none, fun _ => none, none⟩

/-- Scenario-B initial map: a single freshly refreshed `discord`
session, unmuted, counter 0. -/
def scenBSt : MapState := ⟨[⟨"discord", "", false, 0⟩], [("discord", [0])], 1000, []⟩

/-- Decode one `binary_sensor-sw<n>` boolean payload into the
`SwitchEvent` the decoder actually emits. -/
def scenBDecode (b : Bool) (n : ℕ) : Option SwitchEvent :=
  match handleStateEvent false [("id", .str ("binary_sensor-sw" ++ toString n)), ("value", .bool b)] with
  | some (.switchChange ev) => some ev
  | _ => none

/-- Feed one decoded switch payload through `handleSwitchEvent`. -/
def scenBApply (st : MapState) (b : Bool) (n : ℕ) : MapState :=
  match scenBDecode b n with
  | some ev => (handleSwitchEvent scenBCfg scenBEnv 1000 st ev).1
  | none => st

end Deej

/-! ## Theorems -/

namespace Deej

/-- If a pattern-drop succeeds, the scanned list starts with the first
pattern character. -/
theorem dropPre_first {a : Char} {as bs rest : List Char}
    (h : dropPre (a :: as) bs = some rest) : ∃ t, bs = a :: t := by
  cases bs with
  | nil => simp [dropPre] at h
  | cons b t =>
    by_cases hab : a = b
    · exact ⟨t, by rw [hab]⟩
    · simp [dropPre, hab] at h

/-- A switch id never also matches the pot pattern (it starts with `b`,
not `s`). -/
theorem matchSw_matchPot_none {s : String} {N : ℕ} (h : matchSw s = some N) :
    matchPot s = none := by
  unfold matchSw at h
  rcases hdr : dropPre "binary_sensor-sw".toList s.toList with _ | rest
  · rw [hdr] at h; cases h
  · rw [show ("binary_sensor-sw".toList) = 'b' :: "inary_sensor-sw".toList from rfl] at hdr
    obtain ⟨t, ht⟩ := dropPre_first hdr
    unfold matchPot
    rw [show ("sensor-pot".toList) = 's' :: "ensor-pot".toList from rfl, ht]
    simp [dropPre]

/-- A string matching the switch pattern is nonempty. -/
theorem matchSw_ne_empty {s : String} {N : ℕ} (h : matchSw s = some N) : s ≠ "" := by
  intro he
  subst he
  rw [show matchSw "" = none from rfl] at h
  cases h

/-- A string matching the pot pattern is nonempty. -/
theorem matchPot_ne_empty {s : String} {N : ℕ} (h : matchPot s = some N) : s ≠ "" := by
  intro he
  subst he
  rw [show matchPot "" = none from rfl] at h
  cases h

/-- C1: a state payload whose id matches `sensor-pot<N>` and whose value
is a JSON number `v` decodes to exactly one `SliderMove` event with
slider id `N` and percent `clamp(v/100, 0, 1)`, inverted to
`1 - clamp(v/100, 0, 1)` when `invert_sliders` is set; in particular,
for `v ∈ [0, 100]` without inversion the percent is `v/100`. -/
theorem pot_payload_decodes_to_clamped_percent
    (inv : Bool) (raw : JObj) (s : String) (N : ℕ) (v : ℚ)
    (hid : jLookup raw "id" = some (.str s))
    (hpot : matchPot s = some N)
    (hval : jLookup raw "value" = some (.num v)) :
    handleStateEvent inv raw
      = some (.sliderMove ⟨N, if inv then 1 - clamp01 (v / 100) else clamp01 (v / 100)⟩)
    ∧ (inv = false → 0 ≤ v → v ≤ 100 →
        handleStateEvent inv raw = some (.sliderMove ⟨N, v / 100⟩)) := by
  have hs : asGoString raw "id" = s := by simp [asGoString, hid]
  have hne : s ≠ "" := matchPot_ne_empty hpot
  have hmain : handleStateEvent inv raw
      = some (.sliderMove ⟨N, if inv then 1 - clamp01 (v / 100) else clamp01 (v / 100)⟩) := by
    simp only [handleStateEvent, hs, if_neg hne, hpot, asGoNum, hval]
  refine ⟨hmain, ?_⟩
  intro hinv h0 h100
  have hcl : clamp01 (v / 100) = v / 100 := by
    have hlo : ¬ v / 100 < 0 := by
      rw [not_lt]
      exact div_nonneg h0 (by norm_num)
    have hhi : ¬ v / 100 > 1 := by
      rw [not_lt]
      rw [div_le_one (by norm_num : (0:ℚ) < 100)]
      exact h100
    simp [clamp01, hlo, hhi]
  rw [hmain, hinv]
  simp [hcl]

/-- Concrete instance of the pot-decoding theorem. -/
theorem pot_payload_decodes_witness :
    jLookup [("id", JValue.str "sensor-pot7"), ("value", JValue.num 42)] "id"
        = some (.str "sensor-pot7")
    ∧ matchPot "sensor-pot7" = some 7
    ∧ jLookup [("id", JValue.str "sensor-pot7"), ("value", JValue.num 42)] "value"
        = some (.num 42)
    ∧ handleStateEvent false [("id", JValue.str "sensor-pot7"), ("value", JValue.num 42)]
        = some (.sliderMove ⟨7, (42 : ℚ) / 100⟩) := by
  refine ⟨rfl, rfl, rfl, ?_⟩
  exact (pot_payload_decodes_to_clamped_percent false
    [("id", JValue.str "sensor-pot7"), ("value", JValue.num 42)]
    "sensor-pot7" 7 42 rfl rfl rfl).2 rfl (by norm_num) (by norm_num)

/-- C8: for a switch id, a payload carrying boolean `value` decodes to
the same `SwitchChange` event as a payload carrying the equivalent
`state` string in any letter casing (upper-cased it reads `ON`
resp. `OFF`). -/
theorem switch_bool_and_state_payloads_agree
    (inv : Bool) (b : Bool) (raw1 raw2 : JObj) (s t : String) (N : ℕ)
    (h1 : jLookup raw1 "id" = some (.str s))
    (h2 : jLookup raw2 "id" = some (.str s))
    (hsw : matchSw s = some N)
    (hv : jLookup raw1 "value" = some (.bool b))
    (hnb : asGoBool raw2 "value" = none)
    (ht : jLookup raw2 "state" = some (.str t))
    (hcase : goToUpper t = if b then "ON" else "OFF") :
    handleStateEvent inv raw1 = handleStateEvent inv raw2
    ∧ handleStateEvent inv raw1 = some (.switchChange ⟨N, b, false, false⟩) := by
  have hs1 : asGoString raw1 "id" = s := by simp [asGoString, h1]
  have hs2 : asGoString raw2 "id" = s := by simp [asGoString, h2]
  have hne : s ≠ "" := matchSw_ne_empty hsw
  have hpot : matchPot s = none := matchSw_matchPot_none hsw
  have e1 : handleStateEvent inv raw1 = some (.switchChange ⟨N, b, false, false⟩) := by
    simp only [handleStateEvent, hs1, if_neg hne, hpot, hsw, asGoBool, hv]
  have e2 : handleStateEvent inv raw2 = some (.switchChange ⟨N, b, false, false⟩) := by
    simp only [handleStateEvent, hs2, if_neg hne, hpot, hsw, hnb, asGoStr, ht]
    cases b <;> simp [hcase]
  exact ⟨e1.trans e2.symm, e1⟩

/-- Concrete instance of the switch-payload agreement theorem. -/
theorem switch_bool_and_state_payloads_witness :
    matchSw "binary_sensor-sw4" = some 4
    ∧ goToUpper "oN" = "ON"
    ∧ handleStateEvent false [("id", JValue.str "binary_sensor-sw4"), ("value", JValue.bool true)]
        = handleStateEvent false
            [("id", JValue.str "binary_sensor-sw4"), ("state", JValue.str "oN")] := by
  refine ⟨rfl, rfl, ?_⟩
  exact (switch_bool_and_state_payloads_agree false true
    [("id", JValue.str "binary_sensor-sw4"), ("value", JValue.bool true)]
    [("id", JValue.str "binary_sensor-sw4"), ("state", JValue.str "oN")]
    "binary_sensor-sw4" "oN" 4 rfl rfl rfl rfl rfl rfl rfl).1

/-- One counter mutation keeps the counter non-negative. -/
theorem runMuteCountOp_nonneg (s : SessionState) (op : MuteCountOp) :
    0 ≤ getSwitchMuteCount (runMuteCountOp s op) := by
  cases op with
  | set c =>
    simp only [runMuteCountOp, setSwitchMuteCount, getSwitchMuteCount]
    split <;> omega
  | adjust d =>
    simp only [runMuteCountOp, adjustSwitchMuteCount, getSwitchMuteCount]
    split <;> omega

/-- C5: under every sequence of `SetSwitchMuteCount` and
`AdjustSwitchMuteCount` operations — in particular arbitrarily many
`-1` deltas from any starting count — the counter observed through
`GetSwitchMuteCount` stays non-negative. -/
theorem switch_mute_count_never_negative (ops : List MuteCountOp) (s : SessionState)
    (h : 0 ≤ getSwitchMuteCount s) :
    0 ≤ getSwitchMuteCount (runMuteCountOps s ops) := by
  induction ops generalizing s with
  | nil => exact h
  | cons op rest ih => exact ih (runMuteCountOp s op) (runMuteCountOp_nonneg s op)

/-- Concrete instance: repeated off-deltas starting at 0 never drive the
counter negative. -/
theorem switch_mute_count_never_negative_witness :
    (0 : Int) ≤ getSwitchMuteCount ⟨"discord", "", false, 0⟩
    ∧ 0 ≤ getSwitchMuteCount (runMuteCountOps ⟨"discord", "", false, 0⟩
        [.adjust (-1), .adjust (-1), .set 2, .adjust (-1), .adjust (-1), .adjust (-1)]) :=
  ⟨by decide,
   switch_mute_count_never_negative
     [.adjust (-1), .adjust (-1), .set 2, .adjust (-1), .adjust (-1), .adjust (-1)]
     ⟨"discord", "", false, 0⟩ (by decide)⟩

/-- C3: with both transports configured, `startIOTrace` starts serial first;
a busy/permission failure notifies the user and signals a graceful stop
without ever starting SSE; a missing-port failure starts the SSE
transport instead. -/
theorem serial_preferred_busy_fatal_missing_falls_back (e : StartEnv)
    (hs : serialConfigured e = true) (hx : sseConfigured e = true) :
    (startIOTrace e).take 2 = [.setActive .serial, .startSerial]
    ∧ (e.serialStart = some .busy →
        StartAct.notify .serialBusy ∈ startIOTrace e
        ∧ StartAct.signalStop ∈ startIOTrace e
        ∧ StartAct.startSSE ∉ startIOTrace e)
    ∧ (e.serialStart = some .missing → StartAct.startSSE ∈ startIOTrace e) := by
  rcases e with ⟨port, baud, url, serialStart, sseStart⟩
  simp only [startIOTrace, hs, hx, Bool.not_true, Bool.false_and, Bool.and_self, if_false]
  rcases serialStart with _ | err
  · simp
  · cases err <;> cases sseStart <;> simp

/-- Concrete instance of the transport-preference theorem at a busy
port. -/
theorem serial_preferred_witness :
    serialConfigured ⟨"COM3", 9600, "http://host/events", some .busy, false⟩ = true
    ∧ sseConfigured ⟨"COM3", 9600, "http://host/events", some .busy, false⟩ = true
    ∧ (startIOTrace ⟨"COM3", 9600, "http://host/events", some .busy, false⟩).take 2
        = [.setActive .serial, .startSerial]
    ∧ StartAct.startSSE ∉ startIOTrace ⟨"COM3", 9600, "http://host/events", some .busy, false⟩ := by
  refine ⟨by decide, by decide, ?_, ?_⟩
  · exact (serial_preferred_busy_fatal_missing_falls_back
      ⟨"COM3", 9600, "http://host/events", some .busy, false⟩ (by decide) (by decide)).1
  · exact ((serial_preferred_busy_fatal_missing_falls_back
      ⟨"COM3", 9600, "http://host/events", some .busy, false⟩ (by decide) (by decide)).2.1
      rfl).2.2

/-- C4 counterexample: with `serial_port = "COMX"`, an SSE URL
configured and a missing-port serial failure, `startIOTrace` does produce a
user notification about the serial failure (claiming the COM port is
wrongly configured and SSE is being tried), while also starting SSE —
contradicting the claim that no notification beyond a log entry is
produced. -/
theorem missing_port_fallback_notifies_counterexample :
    StartAct.notify .serialWrongPortTryingSSE
        ∈ startIOTrace ⟨"COMX", 9600, "http://host/events", some .missing, false⟩
    ∧ StartAct.startSSE
        ∈ startIOTrace ⟨"COMX", 9600, "http://host/events", some .missing, false⟩ := by
  decide

/-- C4 (amended): when serial start fails with a missing-port error and
an SSE URL is configured, the SSE transport is started and becomes
active, the user is notified that the COM port seems wrongly configured
and the SSE transport layer is being tried, and no stop is signaled
when the SSE start succeeds. -/
theorem missing_port_falls_back_to_sse_with_notice (e : StartEnv)
    (hs : serialConfigured e = true) (hx : sseConfigured e = true)
    (hm : e.serialStart = some .missing) (hok : e.sseStart = false) :
    StartAct.setActive .sse ∈ startIOTrace e
    ∧ StartAct.startSSE ∈ startIOTrace e
    ∧ StartAct.notify .serialWrongPortTryingSSE ∈ startIOTrace e
    ∧ StartAct.signalStop ∉ startIOTrace e := by
  rcases e with ⟨port, baud, url, serialStart, sseStart⟩
  cases hm
  cases hok
  simp only [startIOTrace, hs, hx, Bool.not_true, Bool.false_and, Bool.and_self, if_false]
  simp

/-- Concrete instance of the amended missing-port fallback theorem. -/
theorem missing_port_falls_back_witness :
    serialConfigured ⟨"COMX", 9600, "http://host/events", some .missing, false⟩ = true
    ∧ sseConfigured ⟨"COMX", 9600, "http://host/events", some .missing, false⟩ = true
    ∧ StartAct.startSSE ∈ startIOTrace ⟨"COMX", 9600, "http://host/events", some .missing, false⟩
    ∧ StartAct.signalStop ∉ startIOTrace ⟨"COMX", 9600, "http://host/events", some .missing, false⟩ := by
  refine ⟨by decide, by decide, ?_, ?_⟩
  · exact (missing_port_falls_back_to_sse_with_notice
      ⟨"COMX", 9600, "http://host/events", some .missing, false⟩
      (by decide) (by decide) rfl rfl).2.1
  · exact (missing_port_falls_back_to_sse_with_notice
      ⟨"COMX", 9600, "http://host/events", some .missing, false⟩
      (by decide) (by decide) rfl rfl).2.2.2

/-- The exclusivity field of a parsed action only depends on the
`exclusive` key. -/
theorem parseActionConfig_exclusive_eq (actionMap : JObj) :
    (parseActionConfig actionMap).exclusive
      = (match jLookup actionMap "exclusive" with
         | some (.bool b) => b
         | _ => true) := by
  unfold parseActionConfig
  rcases jLookup actionMap "steps" with _ | v
  · rfl
  · cases v <;> rfl

/-- C9: a parsed button action whose `exclusive` key is absent or not a
boolean is exclusive by default; an explicit boolean is preserved. -/
theorem action_exclusive_defaults_to_true (actionMap : JObj) :
    ((∀ b : Bool, jLookup actionMap "exclusive" ≠ some (.bool b)) →
        (parseActionConfig actionMap).exclusive = true)
    ∧ (∀ b : Bool, jLookup actionMap "exclusive" = some (.bool b) →
        (parseActionConfig actionMap).exclusive = b) := by
  constructor
  · intro hno
    rw [parseActionConfig_exclusive_eq]
    rcases h : jLookup actionMap "exclusive" with _ | v
    · rfl
    · cases v with
      | bool b => exact absurd h (hno b)
      | num v => rfl
      | str s => rfl
      | null => rfl
      | arr xs => rfl
      | obj fields => rfl
  · intro b hb
    rw [parseActionConfig_exclusive_eq, hb]

/-- Concrete instance: an action map without an `exclusive` key parses
as exclusive, one with `exclusive: false` does not. -/
theorem action_exclusive_defaults_witness :
    jLookup [("steps", JValue.arr [])] "exclusive" = none
    ∧ (parseActionConfig [("steps", JValue.arr [])]).exclusive = true
    ∧ jLookup [("exclusive", JValue.bool false)] "exclusive" = some (.bool false)
    ∧ (parseActionConfig [("exclusive", JValue.bool false)]).exclusive = false := by
  have hn : jLookup [("steps", JValue.arr [])] "exclusive" = none := rfl
  refine ⟨hn, ?_, rfl, ?_⟩
  · exact (action_exclusive_defaults_to_true [("steps", JValue.arr [])]).1
      (fun b h => by rw [hn] at h; cases h)
  · exact (action_exclusive_defaults_to_true [("exclusive", JValue.bool false)]).2 false rfl

/-- C10: a `slider_override` entry with an integer value outside
`[0, 100]` is stored clamped (0 below, 100 above) rather than rejected,
and entries whose value is `nil` or the empty string are omitted. -/
theorem slider_override_clamps_and_omits
    (acc : List (Int × Int)) (k : String) (idx : Int) (n : Int)
    (hk : goAtoi k = some idx) :
    ((n < 0 ∨ n > 100) →
        sliderOverrideStep acc (k, .int n) = mapInsert acc idx (if n < 0 then 0 else 100))
    ∧ sliderOverrideStep acc (k, .nil) = acc
    ∧ sliderOverrideStep acc (k, .str "") = acc := by
  refine ⟨?_, ?_, ?_⟩
  · intro hrange
    have hcl : clampOverridePct n = if n < 0 then 0 else 100 := by
      rcases hrange with h | h
      · have h100 : ¬ (0:Int) > 100 := by omega
        simp [clampOverridePct, h, h100]
      · have hn0 : ¬ n < 0 := by omega
        simp [clampOverridePct, h, hn0]
    simp [sliderOverrideStep, hk, hcl]
  · simp [sliderOverrideStep, hk]
  · simp [sliderOverrideStep, hk]

/-- Concrete instance: value 150 is stored as 100, value -3 as 0, and
nil / empty entries disappear. -/
theorem slider_override_clamps_witness :
    goAtoi "3" = some 3
    ∧ ((150 : Int) < 0 ∨ (150 : Int) > 100)
    ∧ sliderOverrideStep [] ("3", .int 150) = [(3, 100)]
    ∧ sliderOverrideStep [(2, 50)] ("3", .nil) = [(2, 50)]
    ∧ sliderOverrideStep [(2, 50)] ("3", .str "") = [(2, 50)] := by
  have h := slider_override_clamps_and_omits [] "3" 3 150 rfl
  have h2 := slider_override_clamps_and_omits [(2, 50)] "3" 3 150 rfl
  refine ⟨rfl, by decide, ?_, h2.2.1, h2.2.2⟩
  have := h.1 (by decide)
  simpa using this

/-- C2 evaluation (Scenario B): with
`switch_mapping = { 0: [discord], 1: [discord] }` and one `discord`
session, the decoded sequence `SwitchChange{0, on}`,
`SwitchChange{1, on}`, `SwitchChange{0, off}` leaves
`switch_mute_count = 2` (not 1), and the subsequent
`SwitchChange{1, off}` leaves it at 2 with the session still muted (not
0 and unmuted): the decoder emits every `SwitchEvent` with
`HasPrev = false`, so the `-1` branch of `applySwitchStateToSession` is
never taken and off events never decrement the counter. -/
theorem scenario_b_off_events_never_decrement :
    scenBDecode true 0 = some ⟨0, true, false, false⟩
    ∧ scenBDecode false 0 = some ⟨0, false, false, false⟩
    ∧ getSwitchMuteCount
        (storeGet (scenBApply (scenBApply (scenBApply scenBSt true 0) true 1) false 0) 0) = 2
    ∧ (storeGet (scenBApply (scenBApply (scenBApply scenBSt true 0) true 1) false 0) 0).muted
        = true
    ∧ getSwitchMuteCount
        (storeGet
          (scenBApply (scenBApply (scenBApply (scenBApply scenBSt true 0) true 1) false 0)
            false 1) 0) = 2
    ∧ (storeGet
        (scenBApply (scenBApply (scenBApply (scenBApply scenBSt true 0) true 1) false 0)
          false 1) 0).muted = true := by
  decide

/-- `addSessionStep` appends exactly one `add` action. -/
theorem addSessionStep_trace (cfg : Config) (env : Env) (acc : MapState × List Act)
    (s : SessionState) :
    (addSessionStep cfg env acc s).2 = acc.2 ++ [Act.add acc.1.store.length] := rfl

/-- The session loop of `getAndAddSessions` only ever appends `add`
actions to the trace. -/
theorem foldl_addSessionStep_adds (cfg : Config) (env : Env) (sessions : List SessionState) :
    ∀ acc : MapState × List Act, (∀ a ∈ acc.2, actIsRelease a = false) →
      ∀ a ∈ (sessions.foldl (addSessionStep cfg env) acc).2, actIsRelease a = false := by
  induction sessions with
  | nil => intro acc hacc a ha; exact hacc a ha
  | cons s rest ih =>
    intro acc hacc a ha
    refine ih (addSessionStep cfg env acc s) ?_ a ha
    intro b hb
    rw [addSessionStep_trace] at hb
    rcases List.mem_append.mp hb with h | h
    · exact hacc b h
    · rcases List.mem_singleton.mp h with rfl
      rfl

/-- `getAndAddSessions` never releases anything: its trace consists of
`add` actions only. -/
theorem getAndAddSessions_trace_adds (cfg : Config) (env : Env) (now : ℕ) (st : MapState) :
    ∀ a ∈ (getAndAddSessions cfg env now st).2, actIsRelease a = false := by
  unfold getAndAddSessions
  rcases env.getAllSessions with _ | sessions
  · intro a ha; cases ha
  · exact foldl_addSessionStep_adds cfg env sessions _ (fun a ha => by cases ha)

/-- The session loop adds one store entry per discovered session. -/
theorem foldl_addSessionStep_store_len (cfg : Config) (env : Env)
    (sessions : List SessionState) :
    ∀ acc : MapState × List Act,
      (sessions.foldl (addSessionStep cfg env) acc).1.store.length
        = acc.1.store.length + sessions.length := by
  induction sessions with
  | nil => intro acc; rfl
  | cons s rest ih =>
    intro acc
    rw [List.foldl_cons, ih]
    have hstep : (addSessionStep cfg env acc s).1.store.length = acc.1.store.length + 1 := by
      simp only [addSessionStep, storeSet]
      split <;> simp [List.length_set]
    rw [hstep]
    simp [List.length_cons]
    omega

/-- When the refresh is not suppressed, its trace is the release of the
previous snapshot followed by the re-acquisition trace. -/
theorem refreshSessions_proceed_trace (cfg : Config) (env : Env) (now : ℕ) (force : Bool)
    (st : MapState)
    (h : force = true ∨ st.lastSessionRefresh + minTimeBetweenSessionRefreshes ≤ now) :
    (refreshSessions cfg env now force st).2
      = (allSessionIds st.buckets).map Act.release
        ++ (getAndAddSessions cfg env now (clearMap st).1).2
    ∧ (refreshSessions cfg env now force st).1
        = (getAndAddSessions cfg env now (clearMap st).1).1 := by
  have hcond : (!force && decide (now < st.lastSessionRefresh + minTimeBetweenSessionRefreshes))
      = false := by
    rcases h with h | h
    · rw [h]; rfl
    · have : ¬ now < st.lastSessionRefresh + minTimeBetweenSessionRefreshes := not_lt.mpr h
      simp [this]

  constructor
  · unfold refreshSessions
    rw [hcond]
    rfl
  · unfold refreshSessions
    rw [hcond]
    rfl

/-- The session loop never touches the refresh timestamp. -/
theorem foldl_addSessionStep_lastRefresh (cfg : Config) (env : Env)
    (sessions : List SessionState) :
    ∀ acc : MapState × List Act,
      (sessions.foldl (addSessionStep cfg env) acc).1.lastSessionRefresh
        = acc.1.lastSessionRefresh := by
  induction sessions with
  | nil => intro acc; rfl
  | cons s rest ih =>
    intro acc
    rw [List.foldl_cons, ih]
    simp only [addSessionStep, storeSet]
    split <;> rfl

/-- `getAndAddSessions` stamps the refresh timestamp with the current
time. -/
theorem getAndAddSessions_lastRefresh (cfg : Config) (env : Env) (now : ℕ) (st : MapState) :
    (getAndAddSessions cfg env now st).1.lastSessionRefresh = now := by
  unfold getAndAddSessions
  rcases env.getAllSessions with _ | sessions
  · rfl
  · rw [foldl_addSessionStep_lastRefresh]

/-- On backend success, `getAndAddSessions` allocates one session object
per discovered session. -/
theorem getAndAddSessions_store_len (cfg : Config) (env : Env) (now : ℕ) (st : MapState)
    (ss : List SessionState) (h : env.getAllSessions = some ss) :
    (getAndAddSessions cfg env now st).1.store.length = st.store.length + ss.length := by
  unfold getAndAddSessions
  rw [h, foldl_addSessionStep_store_len]

/-- Releasing a mapped-over release trace recovers the session list. -/
theorem actReleases_map_release (l : List SessionId) :
    actReleases (l.map Act.release) = l := by
  induction l with
  | nil => rfl
  | cons sid rest ih => simp [actReleases, List.filterMap_cons] at ih ⊢; exact ih

/-- A trace of pure adds releases nothing. -/
theorem actReleases_of_adds (tr : List Act) (h : ∀ a ∈ tr, actIsRelease a = false) :
    actReleases tr = [] := by
  induction tr with
  | nil => rfl
  | cons a rest ih =>
    cases a with
    | release sid =>
      have := h (.release sid) (List.mem_cons_self _ _)
      simp [actIsRelease] at this
    | add sid =>
      simp only [actReleases, List.filterMap_cons]
      exact ih (fun b hb => h b (List.mem_cons_of_mem _ hb))

/-- C6: a non-forced `refreshSessions` call strictly within 5 s of the
last refresh returns without changing the session map and without
releasing or re-acquiring anything, while a forced call always stamps
the refresh time, releases the entire previous snapshot and allocates
one fresh session object per backend-discovered session, regardless of
elapsed time. -/
theorem refresh_suppressed_in_soft_window_unless_forced
    (cfg : Config) (env : Env) (now : ℕ) (st : MapState) :
    (now < st.lastSessionRefresh + minTimeBetweenSessionRefreshes →
        refreshSessions cfg env now false st = (st, []))
    ∧ (refreshSessions cfg env now true st).1.lastSessionRefresh = now
    ∧ actReleases (refreshSessions cfg env now true st).2 = allSessionIds st.buckets
    ∧ (∀ ss, env.getAllSessions = some ss →
        (refreshSessions cfg env now true st).1.store.length = st.store.length + ss.length) := by
  obtain ⟨htr, hst⟩ := refreshSessions_proceed_trace cfg env now true st (Or.inl rfl)
  refine ⟨?_, ?_, ?_, ?_⟩
  · intro h
    unfold refreshSessions
    simp [h]
  · rw [hst, getAndAddSessions_lastRefresh]
  · rw [htr, actReleases, List.filterMap_append]
    show actReleases _ ++ actReleases _ = _
    rw [actReleases_map_release,
      actReleases_of_adds _ (getAndAddSessions_trace_adds cfg env now (clearMap st).1),
      List.append_nil]
  · intro ss h
    rw [hst, getAndAddSessions_store_len cfg env now (clearMap st).1 ss h]
    rfl

/-- Concrete instance of the refresh rate-limiting theorem: a non-forced
call 4 ns after a refresh at time 1000 is a no-op, and a forced call
still re-acquires the backend session. -/
theorem refresh_suppressed_witness :
    1004 < (1000 : ℕ) + minTimeBetweenSessionRefreshes
    ∧ refreshSessions ⟨[], [], false, false⟩
        ⟨false, fun _ => none, none, fun _ => none, some [⟨"x", "", false, 0⟩]⟩ 1004 false
        ⟨[⟨"a", "", false, 0⟩], [("a", [0])], 1000, []⟩
      = (⟨[⟨"a", "", false, 0⟩], [("a", [0])], 1000, []⟩, [])
    ∧ (refreshSessions ⟨[], [], false, false⟩
        ⟨false, fun _ => none, none, fun _ => none, some [⟨"x", "", false, 0⟩]⟩ 1004 true
        ⟨[⟨"a", "", false, 0⟩], [("a", [0])], 1000, []⟩).1.store.length = 1 + 1 :=
  ⟨by decide,
   (refresh_suppressed_in_soft_window_unless_forced _ _ 1004 _).1 (by decide),
   (refresh_suppressed_in_soft_window_unless_forced
      ⟨[], [], false, false⟩
      ⟨false, fun _ => none, none, fun _ => none, some [⟨"x", "", false, 0⟩]⟩ 1004
      ⟨[⟨"a", "", false, 0⟩], [("a", [0])], 1000, []⟩).2.2.2 [⟨"x", "", false, 0⟩] rfl⟩

/-- C7: whenever a refresh actually proceeds (forced, or the soft window
has elapsed), every session of the previous snapshot has its `Release`
called exactly once, and the trace splits into a release phase followed
by an add phase: every release happens before any new session is added
to the map. -/
theorem refresh_releases_old_exactly_once_before_adds
    (cfg : Config) (env : Env) (now : ℕ) (force : Bool) (st : MapState)
    (hproceed : force = true ∨ st.lastSessionRefresh + minTimeBetweenSessionRefreshes ≤ now)
    (hnodup : (allSessionIds st.buckets).Nodup) :
    (∀ sid ∈ allSessionIds st.buckets,
        ((refreshSessions cfg env now force st).2).count (Act.release sid) = 1)
    ∧ ∃ k, (∀ a ∈ ((refreshSessions cfg env now force st).2).take k, actIsRelease a = true)
        ∧ (∀ a ∈ ((refreshSessions cfg env now force st).2).drop k, actIsRelease a = false) := by
  obtain ⟨htr, _⟩ := refreshSessions_proceed_trace cfg env now force st hproceed
  constructor
  · intro sid hm
    rw [htr, List.count_append]
    have h1 : ((allSessionIds st.buckets).map Act.release).count (Act.release sid)
        = (allSessionIds st.buckets).count sid :=
      List.count_map_of_injective _ _ (fun a b hab => by injection hab) sid
    have h2 : (getAndAddSessions cfg env now (clearMap st).1).2.count (Act.release sid) = 0 := by
      rw [List.count_eq_zero]
      intro hmem
      have := getAndAddSessions_trace_adds cfg env now (clearMap st).1 _ hmem
      simp [actIsRelease] at this
    rw [h1, h2, List.count_eq_one_of_mem hnodup hm]
  · refine ⟨((allSessionIds st.buckets).map Act.release).length, ?_, ?_⟩
    · intro a ha
      rw [htr, List.take_left] at ha
      obtain ⟨sid, _, rfl⟩ := List.mem_map.mp ha
      rfl
    · intro a ha
      rw [htr, List.drop_left] at ha
      exact getAndAddSessions_trace_adds cfg env now (clearMap st).1 a ha

/-- Concrete instance of the release-before-add theorem: two previous
sessions, one backend session; both old sessions are released exactly
once and before the add. -/
theorem refresh_releases_witness :
    ((true = true
        ∨ (1000 : ℕ) + minTimeBetweenSessionRefreshes ≤ 0)
      ∧ (allSessionIds ([("a", [0]), ("b", [1])] : List (String × List SessionId))).Nodup)
    ∧ (∀ sid ∈ allSessionIds ([("a", [0]), ("b", [1])] : List (String × List SessionId)),
        ((refreshSessions ⟨[], [], false, false⟩
            ⟨false, fun _ => none, none, fun _ => none, some [⟨"c", "", false, 0⟩]⟩ 0 true
            ⟨[⟨"a", "", false, 0⟩, ⟨"b", "", false, 0⟩], [("a", [0]), ("b", [1])], 1000, []⟩).2).count
          (Act.release sid) = 1)
    ∧ ∃ k,
        (∀ a ∈ ((refreshSessions ⟨[], [], false, false⟩
            ⟨false, fun _ => none, none, fun _ => none, some [⟨"c", "", false, 0⟩]⟩ 0 true
            ⟨[⟨"a", "", false, 0⟩, ⟨"b", "", false, 0⟩], [("a", [0]), ("b", [1])], 1000, []⟩).2).take k,
          actIsRelease a = true)
        ∧ (∀ a ∈ ((refreshSessions ⟨[], [], false, false⟩
            ⟨false, fun _ => none, none, fun _ => none, some [⟨"c", "", false, 0⟩]⟩ 0 true
            ⟨[⟨"a", "", false, 0⟩, ⟨"b", "", false, 0⟩], [("a", [0]), ("b", [1])], 1000, []⟩).2).drop k,
          actIsRelease a = false) := by
  refine ⟨⟨Or.inl rfl, by decide⟩, ?_⟩
  exact refresh_releases_old_exactly_once_before_adds
    ⟨[], [], false, false⟩
    ⟨false, fun _ => none, none, fun _ => none, some [⟨"c", "", false, 0⟩]⟩ 0 true
    ⟨[⟨"a", "", false, 0⟩, ⟨"b", "", false, 0⟩], [("a", [0]), ("b", [1])], 1000, []⟩
    (Or.inl rfl) (by decide)

end Deej
